import Mathlib

/-!
Shallow embedding of the imgui-wgpu renderer (`src/lib.rs`) and proofs about
its geometry-stream, draw-batching, projection, scissor, upload and texture
logic.  Machine integers are modelled as `Nat`; `f32` display/clip-rect
arithmetic is modelled exactly over `ℚ`; fallible operations (`Option` in the
Rust source) are modelled as `Option`; a Rust `unwrap()` panic is modelled by
the surrounding computation returning `none`.
-/

namespace ImguiWgpu

/-- `const MAX_INDEX_COUNT: u64 = std::u16::MAX as u64;` -/
def MAX_INDEX_COUNT : Nat := 65535

/-- `const MAX_VERTEX_COUNT: u64 = std::u16::MAX as u64;` -/
def MAX_VERTEX_COUNT : Nat := 65535

/-- `size_of::<DrawIdx>()` where `DrawIdx = u16`. -/
def sizeOfDrawIdx : Nat := 2

/-- `size_of::<DrawVert>()`: pos `[f32;2]`, uv `[f32;2]`, col `[u8;4]` — 20 bytes. -/
def sizeOfDrawVert : Nat := 20

/-- One imgui `DrawVert`.  The renderer never interprets the numeric contents
of a vertex — it only memcpys its bytes — so the four 32-bit fields are kept
as raw bit patterns (`Nat` below `2^32`) and the colour as four raw bytes. -/
structure DrawVert where
  pos0 : Nat
  pos1 : Nat
  uv0 : Nat
  uv1 : Nat
  col0 : Nat
  col1 : Nat
  col2 : Nat
  col3 : Nat
deriving DecidableEq, Repr

/-- One imgui `DrawCmd`: `Elements { count, cmd_params }` carrying the
clip rect (4×f32, modelled over `ℚ`) and texture id, a `RawCallback`,
or any other variant (matched by `_ => {}` in the source). -/
inductive DrawCmd where
  | elements (count : Nat) (clipRect : ℚ × ℚ × ℚ × ℚ) (textureId : Nat)
  | rawCallback
  | otherCmd
deriving DecidableEq

/-- One imgui draw list: index buffer, vertex buffer, and its draw commands. -/
structure DrawList where
  idxBuffer : List Nat
  vtxBuffer : List DrawVert
  commands : List DrawCmd
deriving DecidableEq

/-- The mutable streaming state of `Renderer`: the element staging vectors
`indices`/`vertices` and the byte staging buffers
`indices_byte_buffer`/`vertices_byte_buffer`. -/
structure Renderer where
  indices : List Nat
  vertices : List DrawVert
  indicesByteBuffer : List Nat
  verticesByteBuffer : List Nat
deriving DecidableEq

/-- The renderer's streaming state as initialised by `Renderer::new`
(all four vectors empty; `with_capacity` reserves space only). -/
def renderer0 : Renderer := ⟨[], [], [], []⟩

/-- `Renderer::append_indices`: mutating method returning `Option<u64>`;
modelled as returning the `Option` result together with the post state. -/
def appendIndices (r : Renderer) (idxs : List Nat) : Option Nat × Renderer :=
  let offset := r.indices.length
  let count := idxs.length
  if offset + count < MAX_INDEX_COUNT then
    (some offset, { r with indices := r.indices ++ idxs })
  else
    (none, r)

/-- `Renderer::append_vertices`: mutating method returning `Option<u64>`;
modelled as returning the `Option` result together with the post state. -/
def appendVertices (r : Renderer) (vtxs : List DrawVert) : Option Nat × Renderer :=
  let offset := r.vertices.length
  let count := vtxs.length
  if offset + count < MAX_VERTEX_COUNT then
    (some offset, { r with vertices := r.vertices ++ vtxs })
  else
    (none, r)

/-- 65535 zero indices: one over-large draw-list index buffer. -/
def bigIdxList : List Nat := List.replicate 65535 0

/-- 65535 zeroed vertices: one over-large draw-list vertex buffer. -/
def bigVtxList : List DrawVert := List.replicate 65535 ⟨0, 0, 0, 0, 0, 0, 0, 0⟩

lemma bigIdxList_length : bigIdxList.length = 65535 := by
  rw [bigIdxList, List.length_replicate]

lemma bigVtxList_length : bigVtxList.length = 65535 := by
  rw [bigVtxList, List.length_replicate]

/-- The scissor rectangle computed in the `DrawCmd::Elements` arm of
`Renderer::render`: `clip_rect[0].max(0.0).floor() as u32`,
`clip_rect[1].max(0.0).floor() as u32`,
`(clip_rect[2]-clip_rect[0]).abs().ceil() as u32`,
`(clip_rect[3]-clip_rect[1]).abs().ceil() as u32`. -/
def scissorOf (clip : ℚ × ℚ × ℚ × ℚ) : Nat × Nat × Nat × Nat :=
  ((⌊max clip.1 0⌋).toNat, (⌊max clip.2.1 0⌋).toNat,
   (⌈|clip.2.2.1 - clip.1|⌉).toNat, (⌈|clip.2.2.2 - clip.2.1|⌉).toNat)

/-- One `draw_indexed` call issued by `Renderer::render`, together with the
scissor rect and texture bind group set just before it. -/
structure DrawCall where
  scissor : Nat × Nat × Nat × Nat
  textureId : Nat
  idxBegin : Nat
  idxEnd : Nat
  vtxOffset : Nat
deriving DecidableEq

/-- The inner `for draw_cmd in draw_list.commands()` loop of `Renderer::render`:
walks the commands with the running index cursor `idx_begin`.  An `Elements`
command whose texture id is absent from the texture table hits
`self.textures.get(..).unwrap()` and panics (modelled as `none`);
`RawCallback` and other variants emit no indexed draw. -/
def replayCmds (texs : List Nat) (vtxOff : Nat) :
    Nat → List DrawCmd → Option (List DrawCall)
  | _, [] => some []
  | idxBegin, DrawCmd.elements count clip tid :: rest =>
    if texs.contains tid then
      (replayCmds texs vtxOff (idxBegin + count) rest).map
        (fun calls => ⟨scissorOf clip, tid, idxBegin, idxBegin + count, vtxOff⟩ :: calls)
    else
      none
  | idxBegin, DrawCmd.rawCallback :: rest => replayCmds texs vtxOff idxBegin rest
  | idxBegin, DrawCmd.otherCmd :: rest => replayCmds texs vtxOff idxBegin rest

/-- The second `for draw_list in draw_data.draw_lists()` loop of
`Renderer::render`: each draw list takes `offsets.first().unwrap()` and then
`offsets.remove(0)` — i.e. the recorded offset pairs are consumed FIFO.
An exhausted offsets vector would panic (`none`). -/
def replayLists (texs : List Nat) :
    List DrawList → List (Nat × Nat) → Option (List (List DrawCall))
  | [], _ => some []
  | _ :: _, [] => none
  | dl :: rest, p :: ps =>
    match replayCmds texs p.2 p.1 dl.commands with
    | none => none
    | some calls => (replayLists texs rest ps).map (fun out => calls :: out)

/-- The first `for draw_list in draw_data.draw_lists()` loop of
`Renderer::render`: `offsets.push((self.append_indices(..).unwrap(),
self.append_vertices(..).unwrap()))`.  A failed append is hit by `unwrap()`
and panics, modelled as the whole loop returning `none`. -/
def renderOffsets : Renderer → List DrawList → Option (Renderer × List (Nat × Nat))
  | r, [] => some (r, [])
  | r, dl :: rest =>
    match appendIndices r dl.idxBuffer with
    | (none, _) => none
    | (some io, r1) =>
      match appendVertices r1 dl.vtxBuffer with
      | (none, _) => none
      | (some vo, r2) =>
        match renderOffsets r2 rest with
        | none => none
        | some (rf, os) => some (rf, (io, vo) :: os)

/-- Little-endian bytes of one 32-bit word (`memcpy` of an `f32` or packed
colour field). -/
def word4 (n : Nat) : List Nat :=
  [n % 256, n / 256 % 256, n / 65536 % 256, n / 16777216 % 256]

/-- Little-endian bytes of one `DrawIdx` (`u16`). -/
def encodeIdx (n : Nat) : List Nat := [n % 256, n / 256 % 256]

/-- The 20 in-memory bytes of one `DrawVert` (pos, uv, col — offsets 0, 8, 16). -/
def encodeVert (v : DrawVert) : List Nat :=
  word4 v.pos0 ++ word4 v.pos1 ++ word4 v.uv0 ++ word4 v.uv1 ++
    [v.col0, v.col1, v.col2, v.col3]

/-- The byte image of the `indices` staging vector. -/
def encodeIndices (l : List Nat) : List Nat := l.flatMap encodeIdx

/-- The byte image of the `vertices` staging vector. -/
def encodeVerts (l : List DrawVert) : List Nat := l.flatMap encodeVert

/-- `size += 4 - (size % 4)` from `Renderer::upload_buffers` (note: adds a full
4 when `size` is already aligned). -/
def pad4Next (n : Nat) : Nat := n + (4 - n % 4)

/-- The byte length `upload_buffers` resizes `indices_byte_buffer` to, and
writes to the GPU index buffer: `pad4Next (65535 * 2) = 131072`. -/
def IDX_UPLOAD_SIZE : Nat := pad4Next (MAX_INDEX_COUNT * sizeOfDrawIdx)

/-- The byte length `upload_buffers` resizes `vertices_byte_buffer` to, and
writes to the GPU vertex buffer: `pad4Next (65535 * 20) = 1310704`. -/
def VTX_UPLOAD_SIZE : Nat := pad4Next (MAX_VERTEX_COUNT * sizeOfDrawVert)

/-- `Vec::resize(size, 0)`: truncate or extend with the fill value. -/
def listResize (l : List Nat) (n : Nat) (fill : Nat) : List Nat :=
  if n ≤ l.length then l.take n else l ++ List.replicate (n - l.length) fill

/-- `libc::memcpy(dst, src, n)`: the first `n` bytes of `src` overwrite the
front of `dst`; the rest of `dst` is untouched. -/
def memcpyInto (dst src : List Nat) (n : Nat) : List Nat :=
  src.take n ++ dst.drop n

/-- Which GPU buffer a `queue.write_buffer` call targets. -/
inductive BufferTarget where
  | indexBuf
  | vertexBuf
  | uniformBuf
deriving DecidableEq

/-- One `queue.write_buffer(buffer, offset, bytes)` call. -/
structure WriteEvent where
  target : BufferTarget
  offset : Nat
  bytes : List Nat
deriving DecidableEq

/-- Placeholder write event (used only as a `getD` default). -/
def noWrite : WriteEvent := ⟨BufferTarget.uniformBuf, 0, []⟩

/-- `Renderer::upload_buffers`: resize each byte buffer to the padded
maximum-capacity byte size, memcpy the element vector's bytes over its front,
write the whole byte buffer to the GPU buffer (one `write_buffer` per buffer,
index side first), then `resize(0, ..)` the element vectors.  The byte buffers
are not cleared. -/
def uploadBuffers (r : Renderer) : Renderer × List WriteEvent :=
  let ib := memcpyInto (listResize r.indicesByteBuffer IDX_UPLOAD_SIZE 0)
    (encodeIndices r.indices) (r.indices.length * sizeOfDrawIdx)
  let vb := memcpyInto (listResize r.verticesByteBuffer VTX_UPLOAD_SIZE 0)
    (encodeVerts r.vertices) (r.vertices.length * sizeOfDrawVert)
  (⟨[], [], ib, vb⟩,
   [⟨BufferTarget.indexBuf, 0, ib⟩, ⟨BufferTarget.vertexBuf, 0, vb⟩])

/-- `Renderer::render` minus the uniform-matrix write (modelled separately by
`projMatrix`): record the offsets (phase 2, panics on a failed append), upload
the buffers (phase 3), then replay each draw list's commands against the FIFO
offsets (phase 5).  Any panic is `none`. -/
def render (r : Renderer) (texs : List Nat) (dls : List DrawList) :
    Option (Renderer × List WriteEvent × List (List DrawCall)) :=
  match renderOffsets r dls with
  | none => none
  | some (r1, offs) =>
    match uploadBuffers r1 with
    | (r2, writes) =>
      match replayLists texs dls offs with
      | none => none
      | some calls => some (r2, writes, calls)

/-- A column-major 4×4 matrix, fields in the order of the `matrix` array
literal in `Renderer::render`. -/
structure Mat4 where
  m0 : ℚ
  m1 : ℚ
  m2 : ℚ
  m3 : ℚ
  m4 : ℚ
  m5 : ℚ
  m6 : ℚ
  m7 : ℚ
  m8 : ℚ
  m9 : ℚ
  m10 : ℚ
  m11 : ℚ
  m12 : ℚ
  m13 : ℚ
  m14 : ℚ
  m15 : ℚ

/-- The orthographic projection matrix formula at the top of
`Renderer::render` in ideal (infinite-precision) arithmetic, entry for entry.
The program computes these entries in `f32`; the rounded matrix it actually
produces is `projMatrixF32` below. -/
def projMatrix (l t r b : ℚ) : Mat4 :=
  ⟨2 / (r - l), 0, 0, 0,
   0, 2 / (t - b), 0, 0,
   0, 0, -1, 0,
   (r + l) / (l - r), (t + b) / (b - t), 0, 1⟩

/-- Apply a column-major 4×4 matrix to a homogeneous point, as the vertex
shader does with the uniform matrix. -/
def matApply (m : Mat4) (x y z w : ℚ) : ℚ × ℚ × ℚ × ℚ :=
  (m.m0 * x + m.m4 * y + m.m8 * z + m.m12 * w,
   m.m1 * x + m.m5 * y + m.m9 * z + m.m13 * w,
   m.m2 * x + m.m6 * y + m.m10 * z + m.m14 * w,
   m.m3 * x + m.m7 * y + m.m11 * z + m.m15 * w)

/-- Round a rational to the nearest integer, ties to even (the IEEE-754
default rounding). -/
def roundTiesEven (x : ℚ) : ℤ :=
  if x - ⌊x⌋ < 1 / 2 then ⌊x⌋
  else if 1 / 2 < x - ⌊x⌋ then ⌊x⌋ + 1
  else if ⌊x⌋ % 2 = 0 then ⌊x⌋ else ⌊x⌋ + 1

/-- IEEE-754 binary32 round-to-nearest-even of an exact rational value: the
significand is rounded to 24 bits at the value's binade.  Normal range only —
subnormals and overflow do not arise for the display rectangles considered. -/
def roundF32 (q : ℚ) : ℚ :=
  if q = 0 then 0
  else if 0 < q then
    (roundTiesEven (q * 2 ^ (23 - Int.log 2 q)) : ℚ) * 2 ^ (Int.log 2 q - 23)
  else
    -((roundTiesEven (-q * 2 ^ (23 - Int.log 2 (-q))) : ℚ) *
        2 ^ (Int.log 2 (-q) - 23))

/-- `f32` addition: exact sum, then binary32 rounding. -/
def f32add (x y : ℚ) : ℚ := roundF32 (x + y)

/-- `f32` subtraction: exact difference, then binary32 rounding. -/
def f32sub (x y : ℚ) : ℚ := roundF32 (x - y)

/-- `f32` division: exact quotient, then binary32 rounding. -/
def f32div (x y : ℚ) : ℚ := roundF32 (x / y)

/-- The projection matrix `Renderer::render` actually computes, with the f32
rounding of every arithmetic operation of lib.rs:130-151 made explicit:
`right - left`, `top - bottom`, `right + left`, `top + bottom` and the four
divisions each round to binary32. -/
def projMatrixF32 (l t r b : ℚ) : Mat4 :=
  ⟨f32div 2 (f32sub r l), 0, 0, 0,
   0, f32div 2 (f32sub t b), 0, 0,
   0, 0, -1, 0,
   f32div (f32add r l) (f32sub l r), f32div (f32add t b) (f32sub b t), 0, 1⟩

/-- Specification-side scissor formula, written from the spec's words: "clamp
clip-rect min corner to ≥0, floor it; take ceil(abs(max−min)) for
width/height". -/
def specScissor (clip : ℚ × ℚ × ℚ × ℚ) : Nat × Nat × Nat × Nat :=
  ((⌊max 0 clip.1⌋).toNat, (⌊max 0 clip.2.1⌋).toNat,
   (⌈|clip.2.2.1 - clip.1|⌉).toNat, (⌈|clip.2.2.2 - clip.2.1|⌉).toNat)

/-- Total index-element count of a sequence of draw lists. -/
def sumIdx (dls : List DrawList) : Nat :=
  (dls.map fun d => d.idxBuffer.length).sum

/-- Total vertex-element count of a sequence of draw lists. -/
def sumVtx (dls : List DrawList) : Nat :=
  (dls.map fun d => d.vtxBuffer.length).sum

/-- Specification-side offsets: the (index-offset, vertex-offset) pair of each
draw list is the cumulative element count of all prior draw lists of the
frame, starting from the base offsets `(i0, v0)`. -/
def recordedOffsets (i0 v0 : Nat) : List DrawList → List (Nat × Nat)
  | [] => []
  | dl :: rest =>
    (i0, v0) :: recordedOffsets (i0 + dl.idxBuffer.length) (v0 + dl.vtxBuffer.length) rest

lemma sumIdx_cons (dl : DrawList) (rest : List DrawList) :
    sumIdx (dl :: rest) = dl.idxBuffer.length + sumIdx rest := by
  simp [sumIdx]

lemma sumVtx_cons (dl : DrawList) (rest : List DrawList) :
    sumVtx (dl :: rest) = dl.vtxBuffer.length + sumVtx rest := by
  simp [sumVtx]

lemma appendIndices_pos (r : Renderer) (idxs : List Nat)
    (h : r.indices.length + idxs.length < MAX_INDEX_COUNT) :
    appendIndices r idxs =
      (some r.indices.length, { r with indices := r.indices ++ idxs }) := by
  simp [appendIndices, h]

lemma appendVertices_pos (r : Renderer) (vtxs : List DrawVert)
    (h : r.vertices.length + vtxs.length < MAX_VERTEX_COUNT) :
    appendVertices r vtxs =
      (some r.vertices.length, { r with vertices := r.vertices ++ vtxs }) := by
  simp [appendVertices, h]

/-- When the whole frame fits, the first render loop records exactly the
cumulative offsets and accumulates all geometry in appended order. -/
lemma renderOffsets_within (dls : List DrawList) : ∀ (r : Renderer),
    r.indices.length + sumIdx dls < MAX_INDEX_COUNT →
    r.vertices.length + sumVtx dls < MAX_VERTEX_COUNT →
    renderOffsets r dls =
      some ({ r with indices := r.indices ++ dls.flatMap (fun d => d.idxBuffer),
                     vertices := r.vertices ++ dls.flatMap (fun d => d.vtxBuffer) },
            recordedOffsets r.indices.length r.vertices.length dls) := by
  induction dls with
  | nil =>
    intro r hi hv
    simp [renderOffsets, recordedOffsets]
  | cons dl rest ih =>
    intro r hi hv
    rw [sumIdx_cons] at hi
    rw [sumVtx_cons] at hv
    have hi1 : r.indices.length + dl.idxBuffer.length < MAX_INDEX_COUNT := by omega
    have hv1 : r.vertices.length + dl.vtxBuffer.length < MAX_VERTEX_COUNT := by omega
    have e2 : appendVertices { r with indices := r.indices ++ dl.idxBuffer } dl.vtxBuffer =
        (some r.vertices.length,
         { r with indices := r.indices ++ dl.idxBuffer,
                  vertices := r.vertices ++ dl.vtxBuffer }) :=
      appendVertices_pos _ dl.vtxBuffer hv1
    have e3 := ih { r with indices := r.indices ++ dl.idxBuffer,
                           vertices := r.vertices ++ dl.vtxBuffer }
        (by simp; omega) (by simp; omega)
    rw [renderOffsets, appendIndices_pos r dl.idxBuffer hi1]
    simp only [e2, e3, recordedOffsets]
    simp [List.append_assoc]

lemma recordedOffsets_length (dls : List DrawList) : ∀ i0 v0,
    (recordedOffsets i0 v0 dls).length = dls.length := by
  induction dls with
  | nil => intro i0 v0; simp [recordedOffsets]
  | cons dl rest ih => intro i0 v0; simp [recordedOffsets, ih]

lemma recordedOffsets_get (dls : List DrawList) : ∀ i0 v0 (i : Nat), i < dls.length →
    (recordedOffsets i0 v0 dls)[i]? =
      some (i0 + sumIdx (dls.take i), v0 + sumVtx (dls.take i)) := by
  induction dls with
  | nil =>
    intro i0 v0 i h
    simp at h
  | cons dl rest ih =>
    intro i0 v0 i h
    cases i with
    | zero => simp [recordedOffsets, sumIdx, sumVtx]
    | succ i =>
      have h' : i < rest.length := by simpa using h
      simp only [recordedOffsets, List.getElem?_cons_succ, List.take_succ_cons,
        sumIdx_cons, sumVtx_cons, ih _ _ i h']
      congr 1
      ext <;> dsimp <;> omega

lemma recordedOffsets_mem_le (dls : List DrawList) : ∀ i0 v0 p,
    p ∈ recordedOffsets i0 v0 dls → i0 ≤ p.1 ∧ v0 ≤ p.2 := by
  induction dls with
  | nil => intro i0 v0 p hp; simp [recordedOffsets] at hp
  | cons dl rest ih =>
    intro i0 v0 p hp
    rw [recordedOffsets] at hp
    rcases List.mem_cons.mp hp with h | h
    · subst h; exact ⟨le_refl _, le_refl _⟩
    · have := ih _ _ _ h
      omega

lemma recordedOffsets_pairwise_le (dls : List DrawList) : ∀ i0 v0,
    List.Pairwise (fun p q : Nat × Nat => p.1 ≤ q.1 ∧ p.2 ≤ q.2)
      (recordedOffsets i0 v0 dls) := by
  induction dls with
  | nil => intro i0 v0; simp [recordedOffsets]
  | cons dl rest ih =>
    intro i0 v0
    rw [recordedOffsets]
    refine List.Pairwise.cons ?_ (ih _ _)
    intro q hq
    have := recordedOffsets_mem_le rest _ _ q hq
    omega

lemma recordedOffsets_pairwise_lt (dls : List DrawList) : ∀ i0 v0,
    (∀ dl ∈ dls, 0 < dl.idxBuffer.length ∧ 0 < dl.vtxBuffer.length) →
    List.Pairwise (fun p q : Nat × Nat => p.1 < q.1 ∧ p.2 < q.2)
      (recordedOffsets i0 v0 dls) := by
  induction dls with
  | nil => intro i0 v0 _; simp [recordedOffsets]
  | cons dl rest ih =>
    intro i0 v0 hne
    rw [recordedOffsets]
    have hdl := hne dl (List.mem_cons_self dl rest)
    refine List.Pairwise.cons ?_ (ih _ _ fun d hd => hne d (List.mem_cons_of_mem dl hd))
    intro q hq
    have := recordedOffsets_mem_le rest _ _ q hq
    omega

/-- FIFO consumption: whenever the replay loop succeeds, the `i`-th draw
list's calls come from replaying its commands against the `i`-th recorded
offset pair. -/
lemma replayLists_get (texs : List Nat) (dls : List DrawList) :
    ∀ (pairs : List (Nat × Nat)) (out : List (List DrawCall)),
    replayLists texs dls pairs = some out →
    ∀ (i : Nat) (dl : DrawList) (p : Nat × Nat),
      dls[i]? = some dl → pairs[i]? = some p →
      out[i]? = replayCmds texs p.2 p.1 dl.commands := by
  induction dls with
  | nil =>
    intro pairs out _ i dl p hdl
    simp at hdl
  | cons dl0 rest ih =>
    intro pairs out hout i dl p hdl hp
    cases pairs with
    | nil => simp [replayLists] at hout
    | cons p0 ps =>
      rw [replayLists] at hout
      cases hcalls : replayCmds texs p0.2 p0.1 dl0.commands with
      | none =>
        rw [hcalls] at hout
        simp at hout
      | some calls =>
        rw [hcalls] at hout
        simp only [Option.map_eq_some'] at hout
        obtain ⟨outRest, hrest, rfl⟩ := hout
        cases i with
        | zero =>
          simp only [List.getElem?_cons_zero, Option.some.injEq] at hdl hp
          subst hdl
          subst hp
          simpa using hcalls.symm
        | succ i =>
          simp only [List.getElem?_cons_succ] at hdl hp ⊢
          exact ih ps outRest hrest i dl p hdl hp

lemma appendIndices_neg (r : Renderer) (idxs : List Nat)
    (h : MAX_INDEX_COUNT ≤ r.indices.length + idxs.length) :
    appendIndices r idxs = (none, r) := by
  simp [appendIndices, Nat.not_lt.mpr h]

lemma appendVertices_neg (r : Renderer) (vtxs : List DrawVert)
    (h : MAX_VERTEX_COUNT ≤ r.vertices.length + vtxs.length) :
    appendVertices r vtxs = (none, r) := by
  simp [appendVertices, Nat.not_lt.mpr h]

/-- Claim C2: for every stream state and every input slice, an append call
that would push the running total index (resp. vertex) count to or above the
capacity returns `None` and leaves the whole renderer state (in particular the
stream's prior contents) completely unchanged — no partial write. -/
theorem append_capacity_failure_no_mutation (r : Renderer) (idxs : List Nat)
    (vtxs : List DrawVert) :
    (MAX_INDEX_COUNT ≤ r.indices.length + idxs.length →
      appendIndices r idxs = (none, r)) ∧
    (MAX_VERTEX_COUNT ≤ r.vertices.length + vtxs.length →
      appendVertices r vtxs = (none, r)) :=
  ⟨appendIndices_neg r idxs, appendVertices_neg r vtxs⟩

/-- Witness for C2 at a concrete input: appending 65535 indices (resp.
vertices) to the freshly constructed renderer fails and leaves it unchanged. -/
theorem append_capacity_failure_no_mutation_w :
    appendIndices renderer0 bigIdxList = (none, renderer0) ∧
    appendVertices renderer0 bigVtxList = (none, renderer0) :=
  ⟨(append_capacity_failure_no_mutation renderer0 bigIdxList bigVtxList).1
      (by rw [bigIdxList_length]; simp [renderer0, MAX_INDEX_COUNT]),
   (append_capacity_failure_no_mutation renderer0 bigIdxList bigVtxList).2
      (by rw [bigVtxList_length]; simp [renderer0, MAX_VERTEX_COUNT])⟩

/-- Counterexample to claim C4 as stated: appending 65535 elements to an empty
stream keeps the running total at 65535, which "does not exceed 65535", yet
the append fails (`append_indices` requires `offset + count < MAX_INDEX_COUNT`
strictly). -/
theorem capacity_off_by_one_cex :
    (appendIndices renderer0 bigIdxList).1 = none ∧
    renderer0.indices.length + bigIdxList.length ≤ 65535 := by
  have h : ¬ (renderer0.indices.length + bigIdxList.length < MAX_INDEX_COUNT) := by
    rw [bigIdxList_length]
    simp [renderer0, MAX_INDEX_COUNT]
  constructor
  · unfold appendIndices
    simp only [if_neg h]
  · rw [bigIdxList_length]
    simp [renderer0]

/-- Claim C4, amended: an append succeeds exactly when the running total of
appended elements stays strictly below 65535 (so at most 65534 elements per
stream per frame); the two capacities are checked independently — appending
vertices never touches the index stream and vice versa. -/
theorem append_success_iff_strictly_below_cap (r : Renderer) (idxs : List Nat)
    (vtxs : List DrawVert) :
    ((appendIndices r idxs).1.isSome ↔ r.indices.length + idxs.length < 65535) ∧
    ((appendVertices r vtxs).1.isSome ↔ r.vertices.length + vtxs.length < 65535) ∧
    (appendVertices r vtxs).2.indices = r.indices ∧
    (appendIndices r idxs).2.vertices = r.vertices := by
  refine ⟨?_, ?_, ?_, ?_⟩
  · by_cases h : r.indices.length + idxs.length < 65535 <;>
      simp [appendIndices, MAX_INDEX_COUNT, h]
  · by_cases h : r.vertices.length + vtxs.length < 65535 <;>
      simp [appendVertices, MAX_VERTEX_COUNT, h]
  · by_cases h : r.vertices.length + vtxs.length < 65535 <;>
      simp [appendVertices, MAX_VERTEX_COUNT, h]
  · by_cases h : r.indices.length + idxs.length < 65535 <;>
      simp [appendIndices, MAX_INDEX_COUNT, h]

/-- A zeroed vertex, used in concrete scenarios. -/
def vert0 : DrawVert := ⟨0, 0, 0, 0, 0, 0, 0, 0⟩

/-- A draw list with 3 indices, 3 vertices and one Elements batch bound to
texture handle 0 (the font texture registered by `Renderer::new`). -/
def dlThree : DrawList := ⟨[0, 1, 2], [vert0, vert0, vert0],
  [DrawCmd.elements 3 (0, 0, 100, 100) 0]⟩

/-- Two draw lists of 3 vertices / 3 indices each (spec scenario). -/
def dlsTwo : List DrawList := [dlThree, dlThree]

/-- A draw list whose index buffer alone exhausts the index capacity. -/
def bigDL : DrawList := ⟨bigIdxList, [], []⟩

/-- A small well-formed draw list with a resolvable Elements batch. -/
def goodDL : DrawList := ⟨[0, 1, 2], [vert0, vert0, vert0],
  [DrawCmd.elements 3 (0, 0, 100, 100) 0]⟩

/-- A draw list with no geometry and no commands. -/
def dlEmpty : DrawList := ⟨[], [], []⟩

/-- Claim C3, amended: for draw lists within capacity, each recorded
(index-offset, vertex-offset) pair equals the cumulative element counts of
the frame's prior draw lists, the pairs are nondecreasing — strictly
increasing whenever every draw list contributes at least one index and one
vertex (the unqualified "strictly increasing" fails for empty draw lists) —
and the replay loop consumes the recorded pairs in the same FIFO order in
which the draw lists were appended. -/
theorem render_offsets_cumulative_fifo (r : Renderer) (texs : List Nat)
    (dls : List DrawList)
    (h0i : r.indices = []) (h0v : r.vertices = [])
    (hi : sumIdx dls < MAX_INDEX_COUNT) (hv : sumVtx dls < MAX_VERTEX_COUNT) :
    ((renderOffsets r dls).map fun x => x.2) = some (recordedOffsets 0 0 dls) ∧
    (∀ i : Nat, i < dls.length →
      (recordedOffsets 0 0 dls)[i]? =
        some (sumIdx (dls.take i), sumVtx (dls.take i))) ∧
    List.Pairwise (fun p q : Nat × Nat => p.1 ≤ q.1 ∧ p.2 ≤ q.2)
      (recordedOffsets 0 0 dls) ∧
    ((∀ dl ∈ dls, 0 < dl.idxBuffer.length ∧ 0 < dl.vtxBuffer.length) →
      List.Pairwise (fun p q : Nat × Nat => p.1 < q.1 ∧ p.2 < q.2)
        (recordedOffsets 0 0 dls)) ∧
    (∀ out, replayLists texs dls (recordedOffsets 0 0 dls) = some out →
      ∀ (i : Nat) (dl : DrawList) (p : Nat × Nat),
        dls[i]? = some dl → (recordedOffsets 0 0 dls)[i]? = some p →
        out[i]? = replayCmds texs p.2 p.1 dl.commands) := by
  have hlen_i : r.indices.length = 0 := by rw [h0i]; rfl
  have hlen_v : r.vertices.length = 0 := by rw [h0v]; rfl
  refine ⟨?_, ?_, recordedOffsets_pairwise_le dls 0 0,
    recordedOffsets_pairwise_lt dls 0 0,
    fun out hout => replayLists_get texs dls _ out hout⟩
  · rw [renderOffsets_within dls r (by omega) (by omega)]
    simp [hlen_i, hlen_v]
  · intro i hilt
    simpa using recordedOffsets_get dls 0 0 i hilt

/-- Witness for C3 at the spec's two-draw-lists scenario (3 indices and 3
vertices each): the recorded pairs are the cumulative counts (0,0), (3,3). -/
theorem render_offsets_cumulative_fifo_w :
    ((renderOffsets renderer0 dlsTwo).map fun x => x.2) =
      some (recordedOffsets 0 0 dlsTwo) :=
  (render_offsets_cumulative_fifo renderer0 [0] dlsTwo rfl rfl
    (by norm_num [sumIdx, dlsTwo, dlThree, MAX_INDEX_COUNT])
    (by norm_num [sumVtx, dlsTwo, dlThree, MAX_VERTEX_COUNT])).1

/-- Counterexample to C3 as stated: two empty draw lists stay within capacity
and both appends succeed, but the two recorded pairs are both (0,0) — not
strictly increasing. -/
theorem offsets_not_strictly_increasing_cex :
    ((renderOffsets renderer0 [dlEmpty, dlEmpty]).map fun x => x.2) =
      some [(0, 0), (0, 0)] ∧
    ¬ List.Pairwise (fun p q : Nat × Nat => p.1 < q.1 ∧ p.2 < q.2)
      [((0 : Nat), (0 : Nat)), (0, 0)] := by
  constructor
  · simp [renderOffsets, appendIndices, appendVertices, renderer0, dlEmpty,
      MAX_INDEX_COUNT, MAX_VERTEX_COUNT]
  · decide

/-- Claim C1, amended: a capacity failure during render is not recovered.
The failing append itself drops the draw list's geometry (the stream is left
unchanged), but `render` calls `unwrap()` on the failed append's `None` and
panics, so the frame aborts: neither the failing draw list's batches nor any
subsequent draw list is processed. -/
theorem append_failure_panics_render (r : Renderer) (texs : List Nat)
    (dl : DrawList) (rest : List DrawList)
    (h : MAX_INDEX_COUNT ≤ r.indices.length + dl.idxBuffer.length ∨
         MAX_VERTEX_COUNT ≤ r.vertices.length + dl.vtxBuffer.length) :
    render r texs (dl :: rest) = none := by
  rcases h with h | h
  · rw [render, renderOffsets, appendIndices_neg r dl.idxBuffer h]
  · by_cases hidx : r.indices.length + dl.idxBuffer.length < MAX_INDEX_COUNT
    · rw [render, renderOffsets, appendIndices_pos r dl.idxBuffer hidx]
      have e : appendVertices { r with indices := r.indices ++ dl.idxBuffer }
          dl.vtxBuffer = (none, { r with indices := r.indices ++ dl.idxBuffer }) :=
        appendVertices_neg _ dl.vtxBuffer h
      simp only [e]
    · rw [render, renderOffsets, appendIndices_neg r dl.idxBuffer
        (Nat.le_of_not_lt hidx)]

/-- Witness for C1 (amended) at a concrete input: a 65535-index draw list
makes render panic. -/
theorem append_failure_panics_render_w :
    render renderer0 [0] [bigDL] = none :=
  append_failure_panics_render renderer0 [0] bigDL []
    (Or.inl (by rw [show bigDL.idxBuffer = bigIdxList from rfl, bigIdxList_length]
                simp [renderer0, MAX_INDEX_COUNT]))

/-- Counterexample to C1 as stated: the first draw list's append fails
(capacity), the second draw list is well formed with a registered texture,
yet `render` returns nothing at all (panic) instead of skipping the first
list and continuing with the second. -/
theorem render_not_recoverable_cex :
    (appendIndices renderer0 bigDL.idxBuffer).1 = none ∧
    render renderer0 [0] [bigDL, goodDL] = none := by
  have h : MAX_INDEX_COUNT ≤ renderer0.indices.length + bigDL.idxBuffer.length := by
    rw [show bigDL.idxBuffer = bigIdxList from rfl, bigIdxList_length]
    simp [renderer0, MAX_INDEX_COUNT]
  constructor
  · rw [appendIndices_neg renderer0 bigDL.idxBuffer h]
  · rw [render, renderOffsets, appendIndices_neg renderer0 bigDL.idxBuffer h]

lemma int_log2_eq (r : ℚ) (e : ℤ) (hr : 0 < r) (h1 : (2:ℚ) ^ e ≤ r)
    (h2 : r < (2:ℚ) ^ (e + 1)) : Int.log 2 r = e := by
  have hc : ((2:ℕ) : ℚ) = (2:ℚ) := by norm_num
  have ha : e ≤ Int.log 2 r := by
    rw [← Int.zpow_le_iff_le_log (by norm_num) hr, hc]
    exact h1
  have hb : Int.log 2 r < e + 1 := by
    rw [← Int.lt_zpow_iff_log_lt (by norm_num) hr, hc]
    exact h2
  omega

/-- Binary32 rounding of a positive value whose scaled significand rounds
down. -/
lemma roundF32_eq_of (q x : ℚ) (e n : ℤ) (hq : 0 < q)
    (h1 : (2:ℚ) ^ e ≤ q) (h2 : q < (2:ℚ) ^ (e + 1))
    (hx : q * 2 ^ (23 - e) = x) (hfl : ⌊x⌋ = n)
    (hfr : x - n < 1 / 2) :
    roundF32 q = (n : ℚ) * 2 ^ (e - 23) := by
  rw [roundF32, if_neg (ne_of_gt hq), if_pos hq, int_log2_eq q e hq h1 h2,
    roundTiesEven, hx, hfl, if_pos hfr]

/-- Binary32 rounding of a positive value whose scaled significand rounds
up. -/
lemma roundF32_eq_of_up (q x : ℚ) (e n : ℤ) (hq : 0 < q)
    (h1 : (2:ℚ) ^ e ≤ q) (h2 : q < (2:ℚ) ^ (e + 1))
    (hx : q * 2 ^ (23 - e) = x) (hfl : ⌊x⌋ = n)
    (hfr : 1 / 2 < x - n) :
    roundF32 q = ((n + 1 : ℤ) : ℚ) * 2 ^ (e - 23) := by
  rw [roundF32, if_neg (ne_of_gt hq), if_pos hq, int_log2_eq q e hq h1 h2,
    roundTiesEven, hx, hfl, if_neg (not_lt.mpr hfr.le), if_pos hfr]

lemma roundF32_neg (q : ℚ) (hq : q < 0) : roundF32 q = -roundF32 (-q) := by
  rw [roundF32, roundF32,
    if_neg (ne_of_lt hq), if_neg (not_lt.mpr (le_of_lt hq)),
    if_neg (neg_ne_zero.mpr (ne_of_lt hq)), if_pos (neg_pos.mpr hq)]

lemma f32_7 : roundF32 7 = 7 := by
  rw [roundF32_eq_of 7 14680064 2 14680064 (by norm_num) (by norm_num)
    (by norm_num) (by norm_num) (by rw [Int.floor_eq_iff]; norm_num)
    (by norm_num)]
  norm_num

lemma f32_9 : roundF32 9 = 9 := by
  rw [roundF32_eq_of 9 9437184 3 9437184 (by norm_num) (by norm_num)
    (by norm_num) (by norm_num) (by rw [Int.floor_eq_iff]; norm_num)
    (by norm_num)]
  norm_num

/-- The binary32 value of 2/7: the 24-bit significand rounds up (guard bit 1,
sticky nonzero). -/
lemma f32_two_sevenths : roundF32 (2 / 7) = 9586981 / 33554432 := by
  rw [roundF32_eq_of_up (2/7) (67108864/7) (-2) 9586980 (by norm_num)
    (by norm_num) (by norm_num) (by norm_num)
    (by rw [Int.floor_eq_iff]; norm_num) (by norm_num)]
  norm_num

/-- The binary32 value of 9/7: the 24-bit significand truncates (guard bit
0). -/
lemma f32_nine_sevenths : roundF32 (9 / 7) = 10785353 / 8388608 := by
  rw [roundF32_eq_of (9/7) (75497472/7) 0 10785353 (by norm_num)
    (by norm_num) (by norm_num) (by norm_num)
    (by rw [Int.floor_eq_iff]; norm_num) (by norm_num)]
  norm_num

/-- Claim C5, amended: in exact arithmetic the projection formula of render
maps (left, top) to clip-space (-1, 1) and (right, bottom) to (1, -1) for
every non-degenerate display rectangle (right > left, bottom > top); the
matrix the program actually computes rounds each entry to f32, so the
mapping need not be exact there (it misses at ordinary rectangles such as
left=1, top=0, right=8, bottom=6 — see the counterexample). -/
theorem projection_maps_corners (l t r b : ℚ) (h1 : l < r) (h2 : t < b) :
    (matApply (projMatrix l t r b) l t 0 1).1 = -1 ∧
    (matApply (projMatrix l t r b) l t 0 1).2.1 = 1 ∧
    (matApply (projMatrix l t r b) r b 0 1).1 = 1 ∧
    (matApply (projMatrix l t r b) r b 0 1).2.1 = -1 := by
  have hrl : r - l ≠ 0 := sub_ne_zero.mpr h1.ne'
  have hlr : l - r ≠ 0 := sub_ne_zero.mpr h1.ne
  have htb : t - b ≠ 0 := sub_ne_zero.mpr h2.ne
  have hbt : b - t ≠ 0 := sub_ne_zero.mpr h2.ne'
  refine ⟨?_, ?_, ?_, ?_⟩ <;>
  · simp only [matApply, projMatrix]
    field_simp
    ring

/-- Witness for C5 at the display rectangle [0,800]×[0,600]. -/
theorem projection_maps_corners_w :
    (matApply (projMatrix 0 0 800 600) 0 0 0 1).1 = -1 ∧
    (matApply (projMatrix 0 0 800 600) 800 600 0 1).1 = 1 :=
  ⟨(projection_maps_corners 0 0 800 600 (by norm_num) (by norm_num)).1,
   (projection_maps_corners 0 0 800 600 (by norm_num) (by norm_num)).2.2.1⟩

/-- Counterexample to C5 as stated: for the display rectangle left=1, top=0,
right=8, bottom=6 the matrix computed in step 1 of render — with the f32
rounding of its arithmetic made explicit — maps (right, bottom) to an x clip
coordinate of 8388609/8388608 = 1 + 2^-23 (f32 value 1.0000001), not exactly
1.  The entries 2/(right-left) and (right+left)/(left-right) are not
binary32-representable, and the rounding error survives the (here exact)
multiply-adds of the matrix application. -/
theorem projection_f32_not_exact_cex :
    (matApply (projMatrixF32 1 0 8 6) 8 6 0 1).1 = 8388609 / 8388608 ∧
    ((8388609 : ℚ) / 8388608) ≠ 1 := by
  have h1 : f32sub 8 1 = 7 := by
    rw [f32sub, show (8:ℚ) - 1 = 7 by norm_num, f32_7]
  have h2 : f32add 8 1 = 9 := by
    rw [f32add, show (8:ℚ) + 1 = 9 by norm_num, f32_9]
  have h3 : f32sub 1 8 = -7 := by
    rw [f32sub, show (1:ℚ) - 8 = -7 by norm_num,
      roundF32_neg (-7) (by norm_num), show -(-7 : ℚ) = 7 by norm_num, f32_7]
  have h4 : f32div 2 7 = 9586981 / 33554432 := by
    rw [f32div, f32_two_sevenths]
  have h5 : f32div 9 (-7) = -(10785353 / 8388608) := by
    rw [f32div, show (9:ℚ) / -7 = -(9/7) by norm_num,
      roundF32_neg (-(9/7)) (by norm_num),
      show -(-(9/7 : ℚ)) = 9/7 by norm_num, f32_nine_sevenths]
  constructor
  · simp only [matApply, projMatrixF32, h1, h2, h3, h4, h5]
    norm_num
  · norm_num

lemma scissorOf_eq_spec (clip : ℚ × ℚ × ℚ × ℚ) :
    scissorOf clip = specScissor clip := by
  simp [scissorOf, specScissor, max_comm]

/-- Claim C6: every Elements batch's scissor rectangle is the spec formula —
min corner clamped to ≥0 then floored for x/y, ceil(abs(max−min)) per axis for
width/height — and for clip rect [-5,-5,50,50] the scissor is (0,0,55,55), in
particular the min corner clamps to (0,0). -/
theorem scissor_rect_formula :
    (∀ (texs : List Nat) (vtxOff idxB count : Nat) (clip : ℚ × ℚ × ℚ × ℚ)
       (tid : Nat), tid ∈ texs →
       replayCmds texs vtxOff idxB [DrawCmd.elements count clip tid] =
         some [⟨specScissor clip, tid, idxB, idxB + count, vtxOff⟩]) ∧
    specScissor (-5, -5, 50, 50) = (0, 0, 55, 55) := by
  constructor
  · intro texs vtxOff idxB count clip tid htex
    simp [replayCmds, htex, scissorOf_eq_spec]
  · have h55 : ((55 : ℤ)).toNat = 55 := rfl
    norm_num [specScissor, h55]

/-- Witness for C6 at the spec's single-batch scenario: 6 indices, clip rect
[0,0,100,100], texture handle 7 registered. -/
theorem scissor_rect_formula_w :
    replayCmds [7] 0 0 [DrawCmd.elements 6 (0, 0, 100, 100) 7] =
      some [⟨specScissor (0, 0, 100, 100), 7, 0, 0 + 6, 0⟩] :=
  scissor_rect_formula.1 [7] 0 0 6 (0, 0, 100, 100) 7 (by decide)

lemma encodeIndices_length (l : List Nat) :
    (encodeIndices l).length = l.length * sizeOfDrawIdx := by
  induction l with
  | nil => rfl
  | cons a l ih =>
    simp only [encodeIndices, List.flatMap_cons, List.length_append,
      List.length_cons] at *
    rw [ih]
    simp [encodeIdx, sizeOfDrawIdx]
    ring

lemma encodeVerts_length (l : List DrawVert) :
    (encodeVerts l).length = l.length * sizeOfDrawVert := by
  induction l with
  | nil => rfl
  | cons a l ih =>
    simp only [encodeVerts, List.flatMap_cons, List.length_append,
      List.length_cons] at *
    rw [ih]
    simp [encodeVert, word4, sizeOfDrawVert]
    ring

lemma listResize_length (l : List Nat) (n fill : Nat) :
    (listResize l n fill).length = n := by
  unfold listResize
  split
  · simp
    omega
  · simp
    omega

/-- When the fresh byte buffer is already at the target size, `resize` is a
no-op. -/
lemma listResize_of_length_eq (l : List Nat) (n fill : Nat)
    (h : l.length = n) : listResize l n fill = l := by
  unfold listResize
  rw [if_pos (le_of_eq h.symm), ← h, List.take_length]

lemma memcpyInto_length (dst src : List Nat) (n : Nat) (hs : src.length = n)
    (hd : n ≤ dst.length) : (memcpyInto dst src n).length = dst.length := by
  simp [memcpyInto, List.length_take, List.length_drop]
  omega

lemma memcpyInto_take (dst src : List Nat) (n : Nat) (hs : src.length = n) :
    (memcpyInto dst src n).take n = src := by
  subst hs
  rw [memcpyInto, List.take_length]
  exact List.take_left _ _

/-- Bytes at positions at or past the copied region keep the destination's
previous value. -/
lemma memcpyInto_getD_high (dst src : List Nat) (n k : Nat)
    (hs : src.length = n) (hk : n ≤ k) :
    (memcpyInto dst src n).getD k 0 = dst.getD k 0 := by
  subst hs
  rw [memcpyInto, List.take_length]
  rw [List.getD_eq_getElem?_getD, List.getD_eq_getElem?_getD]
  rw [List.getElem?_append_right hk, List.getElem?_drop, Nat.add_sub_cancel' hk]

lemma upload_events (r : Renderer) :
    (uploadBuffers r).2 =
      [⟨BufferTarget.indexBuf, 0, (uploadBuffers r).1.indicesByteBuffer⟩,
       ⟨BufferTarget.vertexBuf, 0, (uploadBuffers r).1.verticesByteBuffer⟩] := rfl

lemma upload_idx_bytes (r : Renderer) :
    (uploadBuffers r).1.indicesByteBuffer =
      memcpyInto (listResize r.indicesByteBuffer IDX_UPLOAD_SIZE 0)
        (encodeIndices r.indices) (r.indices.length * sizeOfDrawIdx) := rfl

lemma upload_vtx_bytes (r : Renderer) :
    (uploadBuffers r).1.verticesByteBuffer =
      memcpyInto (listResize r.verticesByteBuffer VTX_UPLOAD_SIZE 0)
        (encodeVerts r.vertices) (r.vertices.length * sizeOfDrawVert) := rfl

lemma IDX_UPLOAD_SIZE_eq : IDX_UPLOAD_SIZE = 131072 := by
  norm_num [IDX_UPLOAD_SIZE, pad4Next, MAX_INDEX_COUNT, sizeOfDrawIdx]

lemma VTX_UPLOAD_SIZE_eq : VTX_UPLOAD_SIZE = 1310704 := by
  norm_num [VTX_UPLOAD_SIZE, pad4Next, MAX_VERTEX_COUNT, sizeOfDrawVert]

lemma upload_idx_bytes_length (r : Renderer)
    (hi : r.indices.length ≤ MAX_INDEX_COUNT) :
    (uploadBuffers r).1.indicesByteBuffer.length = IDX_UPLOAD_SIZE := by
  rw [upload_idx_bytes,
    memcpyInto_length _ _ _ (encodeIndices_length r.indices)
      (by rw [listResize_length, IDX_UPLOAD_SIZE_eq]
          simp only [sizeOfDrawIdx, MAX_INDEX_COUNT] at *
          omega),
    listResize_length]

lemma upload_vtx_bytes_length (r : Renderer)
    (hv : r.vertices.length ≤ MAX_VERTEX_COUNT) :
    (uploadBuffers r).1.verticesByteBuffer.length = VTX_UPLOAD_SIZE := by
  rw [upload_vtx_bytes,
    memcpyInto_length _ _ _ (encodeVerts_length r.vertices)
      (by rw [listResize_length, VTX_UPLOAD_SIZE_eq]
          simp only [sizeOfDrawVert, MAX_VERTEX_COUNT] at *
          omega),
    listResize_length]

/-- Claim C7, amended: `upload_buffers` performs exactly one write per GPU
buffer (index first, then vertex), but the transferred byte length is the
padded maximum-capacity byte size — a fixed constant, not the accumulated
data's length rounded up.  The accumulated byte-packed data occupies the
front of each transfer; the element staging vectors are cleared to empty, so
a fresh sequence of appends afterwards yields exactly the new frame's element
data. -/
theorem flush_fixed_size_single_write (r : Renderer)
    (hi : r.indices.length ≤ MAX_INDEX_COUNT)
    (hv : r.vertices.length ≤ MAX_VERTEX_COUNT) :
    ((uploadBuffers r).2.map fun w => w.target) =
      [BufferTarget.indexBuf, BufferTarget.vertexBuf] ∧
    ((uploadBuffers r).2.getD 0 noWrite).bytes.length = IDX_UPLOAD_SIZE ∧
    ((uploadBuffers r).2.getD 1 noWrite).bytes.length = VTX_UPLOAD_SIZE ∧
    ((uploadBuffers r).2.getD 0 noWrite).bytes.take
        (r.indices.length * sizeOfDrawIdx) = encodeIndices r.indices ∧
    ((uploadBuffers r).2.getD 1 noWrite).bytes.take
        (r.vertices.length * sizeOfDrawVert) = encodeVerts r.vertices ∧
    (uploadBuffers r).1.indices = [] ∧
    (uploadBuffers r).1.vertices = [] ∧
    (∀ idxs : List Nat, idxs.length < MAX_INDEX_COUNT →
      (appendIndices (uploadBuffers r).1 idxs).2.indices = idxs) ∧
    (∀ vtxs : List DrawVert, vtxs.length < MAX_VERTEX_COUNT →
      (appendVertices (uploadBuffers r).1 vtxs).2.vertices = vtxs) := by
  refine ⟨by rw [upload_events]; rfl, ?_, ?_, ?_, ?_, rfl, rfl, ?_, ?_⟩
  · rw [upload_events]
    exact upload_idx_bytes_length r hi
  · rw [upload_events]
    exact upload_vtx_bytes_length r hv
  · rw [upload_events]
    show (uploadBuffers r).1.indicesByteBuffer.take _ = _
    rw [upload_idx_bytes, memcpyInto_take _ _ _ (encodeIndices_length r.indices)]
  · rw [upload_events]
    show (uploadBuffers r).1.verticesByteBuffer.take _ = _
    rw [upload_vtx_bytes, memcpyInto_take _ _ _ (encodeVerts_length r.vertices)]
  · intro idxs hlen
    have h0 : (uploadBuffers r).1.indices = [] := rfl
    rw [appendIndices_pos _ idxs (by rw [h0]; simpa using hlen), h0]
    rfl
  · intro vtxs hlen
    have h0 : (uploadBuffers r).1.vertices = [] := rfl
    rw [appendVertices_pos _ vtxs (by rw [h0]; simpa using hlen), h0]
    rfl

/-- A renderer state with three appended indices and nothing else. -/
def rThree : Renderer := ⟨[1, 2, 3], [], [], []⟩

/-- Counterexample to C7 as stated: with 3 indices (6 bytes) accumulated, the
byte length transferred to the GPU index buffer is the fixed 131072 — not the
accumulated byte length padded to the next 4-byte boundary, which is 8. -/
theorem flush_transfer_length_cex :
    ((uploadBuffers rThree).2.getD 0 noWrite).bytes.length = 131072 ∧
    pad4Next (rThree.indices.length * sizeOfDrawIdx) = 8 ∧
    (131072 : Nat) ≠ 8 := by
  refine ⟨?_, by norm_num [rThree, pad4Next, sizeOfDrawIdx], by norm_num⟩
  rw [upload_events]
  show (uploadBuffers rThree).1.indicesByteBuffer.length = 131072
  rw [upload_idx_bytes_length rThree (by norm_num [rThree, MAX_INDEX_COUNT]),
    IDX_UPLOAD_SIZE_eq]

/-- Witness for C7 (amended) at a concrete state: the write trace is one
index-buffer write followed by one vertex-buffer write. -/
theorem flush_fixed_size_single_write_w :
    ((uploadBuffers rThree).2.map fun w => w.target) =
      [BufferTarget.indexBuf, BufferTarget.vertexBuf] :=
  (flush_fixed_size_single_write rThree
    (by norm_num [rThree, MAX_INDEX_COUNT])
    (by norm_num [rThree, MAX_VERTEX_COUNT])).1

/-- Claim C10: on every flush the byte lengths written to the GPU index and
vertex buffers are the fixed constants derived from the maximum capacities,
independent of how many elements were appended this frame; and every byte
position at or past the current frame's appended data keeps whatever byte the
staging byte buffer held before (only the element vectors are cleared — the
byte buffers are carried over, becoming exactly the written bytes). -/
theorem flush_tail_bytes_retained (r : Renderer)
    (hib : r.indicesByteBuffer.length = IDX_UPLOAD_SIZE)
    (hvb : r.verticesByteBuffer.length = VTX_UPLOAD_SIZE)
    (hi : r.indices.length ≤ MAX_INDEX_COUNT)
    (hv : r.vertices.length ≤ MAX_VERTEX_COUNT) :
    ((uploadBuffers r).2.getD 0 noWrite).bytes.length = IDX_UPLOAD_SIZE ∧
    ((uploadBuffers r).2.getD 1 noWrite).bytes.length = VTX_UPLOAD_SIZE ∧
    (∀ k, r.indices.length * sizeOfDrawIdx ≤ k →
      ((uploadBuffers r).2.getD 0 noWrite).bytes.getD k 0 =
        r.indicesByteBuffer.getD k 0) ∧
    (∀ k, r.vertices.length * sizeOfDrawVert ≤ k →
      ((uploadBuffers r).2.getD 1 noWrite).bytes.getD k 0 =
        r.verticesByteBuffer.getD k 0) ∧
    (uploadBuffers r).1.indices = [] ∧
    (uploadBuffers r).1.vertices = [] ∧
    (uploadBuffers r).1.indicesByteBuffer =
      ((uploadBuffers r).2.getD 0 noWrite).bytes ∧
    (uploadBuffers r).1.verticesByteBuffer =
      ((uploadBuffers r).2.getD 1 noWrite).bytes := by
  refine ⟨?_, ?_, ?_, ?_, rfl, rfl, rfl, rfl⟩
  · rw [upload_events]
    exact upload_idx_bytes_length r hi
  · rw [upload_events]
    exact upload_vtx_bytes_length r hv
  · intro k hk
    rw [upload_events]
    show (uploadBuffers r).1.indicesByteBuffer.getD k 0 = _
    rw [upload_idx_bytes, listResize_of_length_eq _ _ _ hib,
      memcpyInto_getD_high _ _ _ k (encodeIndices_length r.indices) hk]
  · intro k hk
    rw [upload_events]
    show (uploadBuffers r).1.verticesByteBuffer.getD k 0 = _
    rw [upload_vtx_bytes, listResize_of_length_eq _ _ _ hvb,
      memcpyInto_getD_high _ _ _ k (encodeVerts_length r.vertices) hk]

/-- A renderer state as left by a previous flush: both byte staging buffers
already at the full upload size. -/
def rFlushed : Renderer := (uploadBuffers renderer0).1

/-- Witness for C10 at a concrete post-flush state. -/
theorem flush_tail_bytes_retained_w :
    ((uploadBuffers rFlushed).2.getD 0 noWrite).bytes.length = IDX_UPLOAD_SIZE :=
  (flush_tail_bytes_retained rFlushed
    (upload_idx_bytes_length renderer0 (by norm_num [renderer0, MAX_INDEX_COUNT]))
    (upload_vtx_bytes_length renderer0 (by norm_num [renderer0, MAX_VERTEX_COUNT]))
    (by exact Nat.zero_le _) (by exact Nat.zero_le _)).1

/-- One GPU-side operation performed by `Texture::new`. -/
inductive GpuOp where
  | createTexture (width height : Nat)
  | writeTexture (data : List Nat) (bytesPerRow : Nat)
  | createSampler
  | createBindGroup
deriving DecidableEq

/-- `Texture::new` as the ordered trace of GPU operations it performs: create
the texture, `queue.write_texture(.., data, ..)` with
`bytes_per_row = width * 4`, create the sampler, create the bind group.  The
function is total — the source performs no validation of `data.len()`. -/
def textureNewOps (width height : Nat) (data : List Nat) : List GpuOp :=
  [GpuOp.createTexture width height,
   GpuOp.writeTexture data (width * 4),
   GpuOp.createSampler,
   GpuOp.createBindGroup]

/-- Counterexample to C8 as stated: with width = 2, height = 2 and a 3-byte
buffer (3 ≠ 2·2·4 = 16), `Texture::new` does not abort — it creates the GPU
texture and forwards the mismatched bytes to the queue's texture write. -/
theorem texture_creation_no_check_cex :
    ([(0 : Nat), 0, 0].length ≠ 2 * 2 * 4) ∧
    textureNewOps 2 2 [0, 0, 0] =
      [GpuOp.createTexture 2 2, GpuOp.writeTexture [0, 0, 0] 8,
       GpuOp.createSampler, GpuOp.createBindGroup] := by
  exact ⟨by decide, rfl⟩

/-- Claim C8, amended: `Texture::new` performs no byte-length validation —
for every width, height and byte buffer whose length mismatches
width·height·4, resource creation still proceeds: the GPU texture is created
and the buffer is forwarded unchanged to the queue's texture write with
`bytes_per_row = width * 4` (any mismatch is left to the underlying graphics
API, after the GPU texture object already exists). -/
theorem texture_no_length_validation (width height : Nat) (data : List Nat)
    (_h : data.length ≠ width * height * 4) :
    GpuOp.createTexture width height ∈ textureNewOps width height data ∧
    GpuOp.writeTexture data (width * 4) ∈ textureNewOps width height data := by
  constructor
  · simp [textureNewOps]
  · simp [textureNewOps]

/-- Witness for C8 (amended) at the concrete mismatched input. -/
theorem texture_no_length_validation_w :
    GpuOp.writeTexture [0, 0, 0] (2 * 4) ∈ textureNewOps 2 2 [0, 0, 0] :=
  (texture_no_length_validation 2 2 [0, 0, 0] (by decide)).2

/-- Modelled from the spec: the Texture Table (spec §4.2; the imgui crate's
`Textures<T>` registry, whose code is not part of `src/`): a handle-indexed
registry of texture resources, here kept as their RGBA byte payloads,
together with the fresh-handle counter. -/
structure Textures where
  nextId : Nat
  entries : List (Nat × List Nat)
deriving DecidableEq

/-- Modelled from the spec: `insert(resource) -> handle` generates a fresh
unique handle (an increasing counter) and stores the resource under it. -/
def Textures.insertTex (t : Textures) (res : List Nat) : Nat × Textures :=
  (t.nextId, ⟨t.nextId + 1, (t.nextId, res) :: t.entries⟩)

/-- Modelled from the spec: `remove(handle)` drops the owned resource. -/
def Textures.removeTex (t : Textures) (h : Nat) : Textures :=
  ⟨t.nextId, t.entries.filter fun e => decide (e.1 ≠ h)⟩

/-- Modelled from the spec: the UI context's font atlas — its current
rasterized RGBA8 payload and its settable font-texture-handle field. -/
structure UiContext where
  fontTexId : Option Nat
  atlasRgba : List Nat
deriving DecidableEq

/-- Modelled from the spec: `reload_font_texture(uiContext)` — the operation
is described by the spec but absent from `src/`.  It removes the previously
registered font-atlas handle from the Texture Table (if any), rasterizes the
context's current font atlas to RGBA8, creates and registers a new Texture
Resource from it, and writes the new handle back into the context's
font-texture-handle field. -/
def reloadFontTexture (ctx : UiContext) (t : Textures) : UiContext × Textures :=
  let t1 := match ctx.fontTexId with
    | some h => t.removeTex h
    | none => t
  let p := t1.insertTex ctx.atlasRgba
  ({ ctx with fontTexId := some p.1 }, p.2)

lemma lookup_filter_self (h : Nat) (l : List (Nat × List Nat)) :
    (l.filter fun e => decide (e.1 ≠ h)).lookup h = none := by
  induction l with
  | nil => rfl
  | cons e l ih =>
    obtain ⟨k0, v0⟩ := e
    rw [List.filter_cons]
    by_cases he : k0 = h
    · rw [if_neg (by simp [he])]
      exact ih
    · rw [if_pos (by simp [he])]
      have hb : (h == k0) = false := by simp [Ne.symm he]
      simp only [List.lookup, hb]
      exact ih

lemma lookup_filter_ne (k h : Nat) (hk : k ≠ h) (l : List (Nat × List Nat)) :
    (l.filter fun e => decide (e.1 ≠ h)).lookup k = l.lookup k := by
  induction l with
  | nil => rfl
  | cons e l ih =>
    obtain ⟨k0, v0⟩ := e
    rw [List.filter_cons]
    by_cases he : k0 = h
    · have hne : k ≠ k0 := by omega
      have hb : (k == k0) = false := by simp [hne]
      rw [if_neg (by simp [he])]
      simp only [List.lookup, hb]
      exact ih
    · rw [if_pos (by simp [he])]
      simp only [List.lookup]
      cases hkk : (k == k0) with
      | false =>
        simp only [hkk]
        exact ih
      | true =>
        simp only [hkk]

/-- Claim C9 (spec-modelled; `reload_font_texture` is not in `src/`): under
the table invariant that every issued handle lies below the fresh-id counter,
`reload_font_texture` writes the fresh handle back into the UI context's
font-texture-handle field, registers the rasterized atlas payload under that
handle, removes the previously registered font-atlas handle (its lookup fails
afterwards), and leaves every other registered texture untouched. -/
theorem reload_font_texture_behavior (ctx : UiContext) (t : Textures)
    (hOld : ∀ h, ctx.fontTexId = some h → h < t.nextId) :
    (reloadFontTexture ctx t).1.fontTexId = some t.nextId ∧
    (reloadFontTexture ctx t).2.entries.lookup t.nextId = some ctx.atlasRgba ∧
    (∀ h, ctx.fontTexId = some h →
      (reloadFontTexture ctx t).2.entries.lookup h = none) ∧
    (∀ k, k ≠ t.nextId → ctx.fontTexId ≠ some k →
      (reloadFontTexture ctx t).2.entries.lookup k = t.entries.lookup k) := by
  cases hctx : ctx.fontTexId with
  | none =>
    have hR : reloadFontTexture ctx t =
        ({ ctx with fontTexId := some t.nextId },
         ⟨t.nextId + 1, (t.nextId, ctx.atlasRgba) :: t.entries⟩) := by
      simp [reloadFontTexture, hctx, Textures.insertTex]
    rw [hR]
    refine ⟨rfl, by simp [List.lookup], ?_, ?_⟩
    · intro h hh
      simp at hh
    · intro k hk _
      have hb : (k == t.nextId) = false := by simp [hk]
      simp only [List.lookup, hb]
  | some h0 =>
    have hlt : h0 < t.nextId := hOld h0 hctx
    have hR : reloadFontTexture ctx t =
        ({ ctx with fontTexId := some t.nextId },
         ⟨t.nextId + 1, (t.nextId, ctx.atlasRgba) ::
            (t.entries.filter fun e => decide (e.1 ≠ h0))⟩) := by
      simp [reloadFontTexture, hctx, Textures.insertTex, Textures.removeTex]
    rw [hR]
    refine ⟨rfl, by simp [List.lookup], ?_, ?_⟩
    · intro h hh
      injection hh with he
      subst he
      have hb : (h0 == t.nextId) = false := by simp; omega
      simp only [List.lookup, hb]
      exact lookup_filter_self h0 t.entries
    · intro k hk hkold
      have hb : (k == t.nextId) = false := by simp [hk]
      have hk0 : k ≠ h0 := fun hkk => hkold (by rw [hkk])
      simp only [List.lookup, hb]
      exact lookup_filter_ne k h0 hk0 t.entries

/-- Witness for C9: a table holding the old font texture under handle 0 with
fresh counter 1; reloading stores the new handle 1 in the context. -/
theorem reload_font_texture_behavior_w :
    (reloadFontTexture ⟨some 0, [1, 2, 3, 4]⟩ ⟨1, [(0, [9])]⟩).1.fontTexId =
      some 1 :=
  (reload_font_texture_behavior ⟨some 0, [1, 2, 3, 4]⟩ ⟨1, [(0, [9])]⟩
    (by intro h hh; simp at hh ⊢; omega)).1

end ImguiWgpu
